import Mathlib

/-!
Verification development for the gtfslib entity model (gtfslib/model.py).

The Python module defines plain record classes (FeedInfo, Agency, Stop, Route,
Calendar, CalendarDate, Trip, StopTime) with light behaviour: calendar date
arithmetic and comparison, stop-time ordering and identity, consecutive-pair
generation over a trip, and a primitive-only public-attribute view used by the
textual representation.  This file is a shallow embedding of those behaviours.

Conventions of the embedding:
* Python strings are Lean `String` values; character-level operations such as
  slicing go through `String.data` (a `List Char`).
* Python `int` is `Int` (or `Nat` for date components, which Python keeps
  non-negative); Python arbitrary values are the closed universe `PyLit`.
* A fallible Python operation (one that raises) returns `Option` or
  `Except String`; a total one returns a plain value.
* `datetime.date` is embedded as the `Date` structure below, with the proleptic
  Gregorian calendar exactly as implemented by CPython (same leap rule, same
  month tables, same lexicographic comparison, years 1..9999).
-/

/-! ## Python primitive values -/

/-- Closed universe of Python values used for entity attributes and comparison
operands.  `floatV` carries an opaque payload (the model never computes with
floats, it only stores and classifies them); `objV` stands for any
non-primitive object (lists, dicts, entity references). -/
inductive PyLit where
  | strV (s : String)
  | intV (n : Int)
  | floatV (bits : Nat)
  | boolV (b : Bool)
  | noneV
  | objV (desc : String)
deriving DecidableEq

/-- Mirrors the PRIMITIVE_TYPES check of _public_vars: a value is primitive
when it is a str, int, float or bool instance. -/
def PyLit.isPrimitive : PyLit → Bool
  | .strV _ => true
  | .intV _ => true
  | .floatV _ => true
  | .boolV _ => true
  | _ => false

/-- Mirrors _public_vars(obj): keep the attributes whose name does not start
with an underscore and whose value is primitive.  The attribute dictionary is
modelled as an ordered association list.  The Python code reads k[0], which
presumes every key is a nonempty string; on a nonempty key the head? test below
coincides with it. -/
def _public_vars (attrs : List (String × PyLit)) : List (String × PyLit) :=
  attrs.filter fun kv => (kv.1.data.head? != some '_') && kv.2.isPrimitive

/-! ## Dates (embedding of datetime.date as used by CalendarDate) -/

/-- Embeds a datetime.date as its (year, month, day) fields. -/
structure Date where
  year : Nat
  month : Nat
  day : Nat
deriving DecidableEq

/-- Leap-year rule of the proleptic Gregorian calendar (CPython _is_leap). -/
def isLeap (y : Nat) : Bool :=
  y % 4 == 0 && (y % 100 != 0 || y % 400 == 0)

/-- Days in a month as a function of the leap flag (CPython _DAYS_IN_MONTH
table plus the February adjustment). -/
def dimB (leap : Bool) (m : Nat) : Nat :=
  if m = 2 then (if leap then 29 else 28)
  else if m = 4 ∨ m = 6 ∨ m = 9 ∨ m = 11 then 30
  else 31

/-- Days in month m of year y. -/
def daysInMonth (y m : Nat) : Nat := dimB (isLeap y) m

/-- Cumulative days before month m, as a function of the leap flag (CPython
_DAYS_BEFORE_MONTH table plus the post-February leap adjustment). -/
def dbmB (leap : Bool) (m : Nat) : Nat :=
  (match m with
   | 1 => 0 | 2 => 31 | 3 => 59 | 4 => 90 | 5 => 120 | 6 => 151
   | 7 => 181 | 8 => 212 | 9 => 243 | 10 => 273 | 11 => 304 | 12 => 334
   | _ => 0)
  + (if 2 < m ∧ leap then 1 else 0)

/-- Days before month m of year y. -/
def daysBeforeMonth (y m : Nat) : Nat := dbmB (isLeap y) m

/-- Number of days before January 1st of year y (CPython _days_before_year). -/
def daysBeforeYear (y : Nat) : Nat :=
  (y - 1) * 365 + (y - 1) / 4 - (y - 1) / 100 + (y - 1) / 400

/-- Proleptic Gregorian ordinal of a date, 0001-01-01 having ordinal 1
(CPython _ymd2ord); this is what date.toordinal returns, what timedelta
subtraction counts, and what date + timedelta steps. -/
def Date.toOrdinal (d : Date) : Nat :=
  daysBeforeYear d.year + daysBeforeMonth d.year d.month + d.day

/-- Validity of a date exactly as enforced by the datetime.date constructor:
year in 1..9999, month in 1..12, day in 1..days-in-month. -/
def Date.IsOk (d : Date) : Prop :=
  1 ≤ d.year ∧ d.year ≤ 9999 ∧ 1 ≤ d.month ∧ d.month ≤ 12 ∧
    1 ≤ d.day ∧ d.day ≤ daysInMonth d.year d.month

instance (d : Date) : Decidable d.IsOk := by
  unfold Date.IsOk; infer_instance

/-- Comparison of dates: datetime.date compares the (year, month, day)
triples lexicographically. -/
def Date.lt (a b : Date) : Bool :=
  decide (a.year < b.year ∨ (a.year = b.year ∧
    (a.month < b.month ∨ (a.month = b.month ∧ a.day < b.day))))

/-- Successor date, the value of date + timedelta(days=1).  For every valid
date this civil-calendar step agrees with the ordinal arithmetic CPython
performs (theorem toOrdinal_nextDay below). -/
def Date.nextDay (d : Date) : Date :=
  if d.day < daysInMonth d.year d.month then ⟨d.year, d.month, d.day + 1⟩
  else if d.month < 12 then ⟨d.year, d.month + 1, 1⟩
  else ⟨d.year + 1, 1, 1⟩

/-- Embeds the datetime.date(year, month, day) constructor: returns the date
when the components are in range, and fails (Python: raises ValueError)
otherwise. -/
def datetime_date (y m d : Nat) : Option Date :=
  if (Date.mk y m d).IsOk then some ⟨y, m, d⟩ else none

/-! ## Digit-string parsing and formatting helpers -/

/-- Accumulator loop of integer parsing over a character list: consumes
decimal digits, fails on anything else. -/
def parseIntGo (acc : Nat) : List Char → Option Nat
  | [] => some acc
  | c :: cs => if c.isDigit then parseIntGo (acc * 10 + (c.toNat - 48)) cs else none

/-- Embeds Python int(s) restricted to strings of decimal digits: fails on the
empty string and on any non-digit character.  (Python int() additionally
accepts signs, surrounding whitespace and underscores; no string reaching
int() in the claims under study uses those forms.) -/
def parseInt (cs : List Char) : Option Nat :=
  match cs with
  | [] => none
  | _ => parseIntGo 0 cs

/-- Zero-padded decimal rendering of n to exactly k digits, most significant
first; for n < 10^k this is the Python format f-string with width k. -/
def padDigits : Nat → Nat → List Char
  | 0, _ => []
  | k + 1, n => Nat.digitChar (n / 10 ^ k % 10) :: padDigits k n

/-- Splits a character list on the dash character; embeds Python
str.split("-") (every split part, in order, dashes removed). -/
def splitOnDash : List Char → List (List Char)
  | [] => [[]]
  | c :: cs =>
      if c = '-' then [] :: splitOnDash cs
      else
        match splitOnDash cs with
        | p :: ps => (c :: p) :: ps
        | [] => [[c]]

/-- ISO rendering of a date, the value of str(datetime.date): zero-padded
YYYY-MM-DD. -/
def Date.toIso (d : Date) : String :=
  ⟨padDigits 4 d.year ++ '-' :: (padDigits 2 d.month ++ '-' :: padDigits 2 d.day)⟩

/-! ## Entity records -/

/-- FeedInfo: identifies a feed; no extra fields accepted. -/
structure FeedInfo where
  feed_id : String
deriving DecidableEq

/-- Agency record; the extras field holds the open-ended keyword arguments the
constructor stores verbatim via setattr. -/
structure Agency where
  feed_id : String
  agency_id : String
  agency_name : String
  agency_url : String
  agency_timezone : String
  extras : List (String × PyLit)
deriving DecidableEq

/-- Stop record.  Latitude, longitude and parent_station_id carry arbitrary
Python values (floats, None); location_type and wheelchair_boarding are the
integer enum codes, stored without validation. -/
structure Stop where
  feed_id : String
  stop_id : String
  stop_name : String
  stop_lat : PyLit
  stop_lon : PyLit
  location_type : Int
  parent_station_id : PyLit
  wheelchair_boarding : Int
  extras : List (String × PyLit)
deriving DecidableEq

/-- Route record. -/
structure Route where
  feed_id : String
  route_id : String
  agency_id : String
  route_type : Int
  extras : List (String × PyLit)
deriving DecidableEq

/-- Calendar record; no extra fields accepted. -/
structure Calendar where
  feed_id : String
  service_id : String
deriving DecidableEq

/-- CalendarDate record.  __init__ stores the date and sets feed_id to None;
service_id is only ever attached externally (the repr probes it with hasattr),
so both identifier fields are modelled as PyLit values defaulting to noneV. -/
structure CalendarDate where
  feed_id : PyLit
  service_id : PyLit
  date : Date
deriving DecidableEq

/-- StopTime record.  The four leading fields are the primary key; every other
field is payload stored without validation. -/
structure StopTime where
  feed_id : String
  trip_id : String
  stop_id : String
  stop_sequence : Int
  arrival_time : PyLit
  departure_time : PyLit
  shape_dist_traveled : PyLit
  interpolated : PyLit
  timepoint : PyLit
  pickup_type : PyLit
  dropoff_type : PyLit
  extras : List (String × PyLit)
deriving DecidableEq

/-- Trip record.  stop_times is the stop-time sequence the external loader
attaches after construction (an ordinary attribute in Python, a field here);
the three enum fields are stored without validation. -/
structure Trip where
  feed_id : String
  trip_id : String
  route_id : String
  service_id : String
  wheelchair_accessible : Int
  bikes_allowed : Int
  exact_times : Int
  extras : List (String × PyLit)
  stop_times : List StopTime
deriving DecidableEq

/-! ## Attribute dictionaries (vars(obj)) for the repr path -/

/-- Instance dictionary of an Agency, in assignment order: the fixed fields
written by __init__ followed by the extra keyword fields. -/
def Agency.attrs (a : Agency) : List (String × PyLit) :=
  [("feed_id", .strV a.feed_id), ("agency_id", .strV a.agency_id),
   ("agency_name", .strV a.agency_name), ("agency_url", .strV a.agency_url),
   ("agency_timezone", .strV a.agency_timezone)] ++ a.extras

/-- Fixed attribute names written by the Agency constructor. -/
def Agency.fixedNames : List String :=
  ["feed_id", "agency_id", "agency_name", "agency_url", "agency_timezone"]

/-- Instance dictionary of a Stop, in assignment order. -/
def Stop.attrs (s : Stop) : List (String × PyLit) :=
  [("feed_id", .strV s.feed_id), ("stop_id", .strV s.stop_id),
   ("location_type", .intV s.location_type), ("stop_name", .strV s.stop_name),
   ("stop_lat", s.stop_lat), ("stop_lon", s.stop_lon),
   ("parent_station_id", s.parent_station_id),
   ("wheelchair_boarding", .intV s.wheelchair_boarding)] ++ s.extras

/-- Fixed attribute names written by the Stop constructor. -/
def Stop.fixedNames : List String :=
  ["feed_id", "stop_id", "location_type", "stop_name", "stop_lat", "stop_lon",
   "parent_station_id", "wheelchair_boarding"]

/-- Instance dictionary of a Route, in assignment order. -/
def Route.attrs (r : Route) : List (String × PyLit) :=
  [("feed_id", .strV r.feed_id), ("route_id", .strV r.route_id),
   ("agency_id", .strV r.agency_id), ("route_type", .intV r.route_type)] ++ r.extras

/-- Fixed attribute names written by the Route constructor. -/
def Route.fixedNames : List String :=
  ["feed_id", "route_id", "agency_id", "route_type"]

/-- Instance dictionary of a Trip right after construction (before the loader
attaches stop_times; an attached stop_times entry holds a list, which the
primitive filter of _public_vars discards anyway). -/
def Trip.attrs (t : Trip) : List (String × PyLit) :=
  [("feed_id", .strV t.feed_id), ("trip_id", .strV t.trip_id),
   ("route_id", .strV t.route_id), ("service_id", .strV t.service_id),
   ("wheelchair_accessible", .intV t.wheelchair_accessible),
   ("bikes_allowed", .intV t.bikes_allowed),
   ("exact_times", .intV t.exact_times)] ++ t.extras

/-- Fixed attribute names written by the Trip constructor. -/
def Trip.fixedNames : List String :=
  ["feed_id", "trip_id", "route_id", "service_id", "wheelchair_accessible",
   "bikes_allowed", "exact_times"]

/-- Instance dictionary of a StopTime, in assignment order. -/
def StopTime.attrs (st : StopTime) : List (String × PyLit) :=
  [("feed_id", .strV st.feed_id), ("trip_id", .strV st.trip_id),
   ("stop_id", .strV st.stop_id), ("stop_sequence", .intV st.stop_sequence),
   ("arrival_time", st.arrival_time), ("departure_time", st.departure_time),
   ("interpolated", st.interpolated),
   ("shape_dist_traveled", st.shape_dist_traveled),
   ("timepoint", st.timepoint), ("pickup_type", st.pickup_type),
   ("dropoff_type", st.dropoff_type)] ++ st.extras

/-- Fixed attribute names written by the StopTime constructor. -/
def StopTime.fixedNames : List String :=
  ["feed_id", "trip_id", "stop_id", "stop_sequence", "arrival_time",
   "departure_time", "interpolated", "shape_dist_traveled", "timepoint",
   "pickup_type", "dropoff_type"]

/-! ## Comparison operands -/

/-- Universe of values an entity comparison method can receive.  Every Python
object reaching __eq__ or __lt__ in the claims under study is one of: another
entity of the relevant class, a datetime.date, or a primitive literal.  The
constructors other than stO lack a stop_sequence attribute, and the
constructors other than litO-str, dateO and cdO are not coercible to a
CalendarDate. -/
inductive PyObj where
  | stO (v : StopTime)
  | cdO (v : CalendarDate)
  | dateO (v : Date)
  | litO (v : PyLit)
deriving DecidableEq

/-- Textual rendering of an operand, used when an error message interpolates
the offending value ("%s" % other).  Only the literal cases are ever inspected
by the claims; object renderings are abbreviated. -/
def PyObj.toText : PyObj → String
  | .litO (.strV s) => s
  | .litO (.intV n) => toString n
  | .litO (.floatV b) => "float:" ++ toString b
  | .litO (.boolV b) => if b then "True" else "False"
  | .litO .noneV => "None"
  | .litO (.objV d) => d
  | .stO _ => "<StopTime>"
  | .cdO _ => "<CalendarDate>"
  | .dateO _ => "<date>"

/-! ## CalendarDate operations -/

/-- Embeds CalendarDate.__init__(date): fresh instance with feed_id None. -/
def CalendarDate.ofDate (d : Date) : CalendarDate := ⟨.noneV, .noneV, d⟩

/-- Embeds CalendarDate.ymd(year, month, day) = cls(datetime.date(y, m, d));
fails exactly when the datetime.date constructor raises. -/
def CalendarDate.ymd (y m d : Nat) : Option CalendarDate :=
  (datetime_date y m d).map CalendarDate.ofDate

/-- Embeds CalendarDate.fromYYYYMMDD(s) = ymd(int(s[0:4]), int(s[4:6]),
int(s[6:8])).  Note the slices read at most the first eight characters and no
length check is made. -/
def CalendarDate.fromYYYYMMDD (s : String) : Option CalendarDate :=
  let cs := s.data
  (parseInt (cs.take 4)).bind fun y =>
    (parseInt ((cs.drop 4).take 2)).bind fun m =>
      (parseInt ((cs.drop 6).take 2)).bind fun d =>
        CalendarDate.ymd y m d

/-- Embeds next_day at its default argument (ndays=1):
CalendarDate(self.date + timedelta(days=1)), a fresh instance. -/
def CalendarDate.next_day (c : CalendarDate) : CalendarDate :=
  CalendarDate.ofDate c.date.nextDay

/-- Embeds CalendarDate._coerce(other): a str operand is split on dashes and
its first three parts fed through int() and datetime.date (any of which can
raise, modelled by the IndexError/ValueError messages); a datetime.date is
taken as is; a CalendarDate contributes its date; anything else raises
ValueError naming the value.  (Message punctuation is simplified; the Python
text reads "Can" with an apostrophe and quotes the yyyy-mm-dd hint.) -/
def CalendarDate.coerce : PyObj → Except String Date
  | .litO (.strV s) =>
      match (splitOnDash s.data)[0]?, (splitOnDash s.data)[1]?, (splitOnDash s.data)[2]? with
      | some p0, some p1, some p2 =>
          (match parseInt p0, parseInt p1, parseInt p2 with
           | some y, some m, some d =>
               (match datetime_date y m d with
                | some dt => .ok dt
                | none => .error "ValueError: invalid date components")
           | _, _, _ => .error "ValueError: invalid literal for int")
      | _, _, _ => .error "IndexError: list index out of range"
  | .dateO d => .ok d
  | .cdO c => .ok c.date
  | v => .error ("Cannot coerce " ++ v.toText ++
      " to a CalendarDate (use either a CalendarDate, a yyyy-mm-dd string or a datetime.date)")

/-- Embeds CalendarDate.__eq__: self.date == self._coerce(other). -/
def CalendarDate.eqPy (c : CalendarDate) (v : PyObj) : Except String Bool :=
  (CalendarDate.coerce v).map fun d => decide (c.date = d)

/-- Embeds CalendarDate.__lt__: self.date < self._coerce(other). -/
def CalendarDate.ltPy (c : CalendarDate) (v : PyObj) : Except String Bool :=
  (CalendarDate.coerce v).map fun d => c.date.lt d

/-- Embeds CalendarDate.__ne__: self.date != self._coerce(other). -/
def CalendarDate.nePy (c : CalendarDate) (v : PyObj) : Except String Bool :=
  (CalendarDate.coerce v).map fun d => decide (c.date ≠ d)

/-- Embeds CalendarDate.__hash__: year * 384 + month * 32 + day. -/
def CalendarDate.pyhash (c : CalendarDate) : Nat :=
  c.date.year * 384 + c.date.month * 32 + c.date.day

/-- Loop body of CalendarDate.range with an explicit iteration bound: while
cursor < end, yield cursor then advance one day.  The guard is __lt__ at a
CalendarDate operand, where _coerce returns the operand date, hence the
direct date comparison. -/
def rangeLoop : Nat → CalendarDate → CalendarDate → List CalendarDate
  | 0, _, _ => []
  | fuel + 1, cur, e =>
      if cur.date.lt e.date then cur :: rangeLoop fuel cur.next_day e else []

/-- Embeds CalendarDate.range(start, end) as the list of yielded values.  The
iteration bound is the ordinal distance, which the loop never exhausts early:
rangeLoop_stable below shows any larger bound yields the same list, so this is
exactly the while-loop semantics of the Python generator. -/
def CalendarDate.range (s e : CalendarDate) : List CalendarDate :=
  rangeLoop (e.date.toOrdinal - s.date.toOrdinal) s e

/-- Iterated next_day, the reference chain a range traversal follows. -/
def nextDayIter : Nat → CalendarDate → CalendarDate
  | 0, c => c
  | n + 1, c => nextDayIter n c.next_day

/-- Reference chain of n yielded values starting at c, each one day after the
previous; the specification-side shape used to characterise range output. -/
def dayChain : Nat → CalendarDate → List CalendarDate
  | 0, _ => []
  | n + 1, c => c :: dayChain n c.next_day

/-! ## StopTime operations -/

/-- Embeds StopTime._primary_keys(): the (feed_id, trip_id, stop_id,
stop_sequence) tuple, as the value list the generic helpers traverse. -/
def StopTime.primary_keys (st : StopTime) : List PyLit :=
  [.strV st.feed_id, .strV st.trip_id, .strV st.stop_id, .intV st.stop_sequence]

/-- Embeds _generic_eq(a_ids, b_ids): zip the two tuples and compare
componentwise, short-circuiting on the first mismatch. -/
def _generic_eq (a_ids b_ids : List PyLit) : Bool :=
  (a_ids.zip b_ids).all fun p => p.1 == p.2

/-- Embeds _generic_hash(ids) relative to the primitive Python hash function
on the components: h starts at 0 and each step performs h += hash(id) then
h *= 97.  Python object hashes are deterministic within one interpreter run,
hence the explicit hash parameter. -/
def _generic_hash (pyHash : PyLit → Int) (ids : List PyLit) : Int :=
  ids.foldl (fun h x => (h + pyHash x) * 97) 0

/-- Embeds StopTime.__lt__ between two stop-times: stop_sequence comparison
only. -/
def StopTime.ltSt (a b : StopTime) : Bool :=
  decide (a.stop_sequence < b.stop_sequence)

/-- Embeds StopTime.__eq__ between two stop-times (the isinstance branch):
_generic_eq of the primary key tuples. -/
def StopTime.eqSt (a b : StopTime) : Bool :=
  _generic_eq a.primary_keys b.primary_keys

/-- Embeds StopTime.__eq__ against an arbitrary operand: a non-StopTime value
short-circuits to False before any attribute access, so the function is
total. -/
def StopTime.eqPy (a : StopTime) : PyObj → Bool
  | .stO b => a.eqSt b
  | _ => false

/-- Embeds StopTime.__lt__ against an arbitrary operand: the body reads
other.stop_sequence unconditionally, so every operand lacking that attribute
raises AttributeError (every non-StopTime constructor of PyObj lacks it). -/
def StopTime.ltPy (a : StopTime) : PyObj → Except String Bool
  | .stO b => .ok (a.ltSt b)
  | _ => .error "AttributeError: object has no attribute stop_sequence"

/-- Embeds StopTime.__hash__ relative to the primitive hash function:
_generic_hash of the primary key tuple. -/
def StopTime.pyhash (pyHash : PyLit → Int) (st : StopTime) : Int :=
  _generic_hash pyHash st.primary_keys

/-! ## Trip operations -/

/-- Embeds Trip.hops(): zip(stop_times[0:], stop_times[1:]), the list of
consecutive stop-time pairs. -/
def Trip.hops (t : Trip) : List (StopTime × StopTime) :=
  t.stop_times.zip (t.stop_times.drop 1)

/-- Specification-side description of consecutive pairing, written from the
words of the claim: the pairs (l[i], l[i+1]) in order.  Trip.hops is proved
equal to it. -/
def adjacentPairs : List StopTime → List (StopTime × StopTime)
  | a :: b :: rest => (a, b) :: adjacentPairs (b :: rest)
  | _ => []

/-! ## Calendar arithmetic lemmas -/

/-- Every month slot of the table holds at least one day. -/
theorem dimB_pos (b : Bool) (m : Nat) : 1 ≤ dimB b m := by
  unfold dimB; split_ifs <;> omega

/-- No month holds more than 31 days. -/
theorem dimB_le_31 (b : Bool) (m : Nat) : dimB b m ≤ 31 := by
  unfold dimB; split_ifs <;> omega

/-- Cumulative-days table steps by the month length. -/
theorem dbmB_succ (b : Bool) (m : Nat) (h1 : 1 ≤ m) (h2 : m ≤ 11) :
    dbmB b (m + 1) = dbmB b m + dimB b m := by
  have key : ∀ b : Bool, ∀ m : Nat, m < 12 → 1 ≤ m →
      dbmB b (m + 1) = dbmB b m + dimB b m := by decide
  exact key b m (by omega) h1

/-- End of any month stays within the end of December. -/
theorem dbmB_add_le (b : Bool) (m : Nat) (h1 : 1 ≤ m) (h2 : m ≤ 12) :
    dbmB b m + dimB b m ≤ dbmB b 12 + 31 := by
  have key : ∀ b : Bool, ∀ m : Nat, m < 13 → 1 ≤ m →
      dbmB b m + dimB b m ≤ dbmB b 12 + 31 := by decide
  exact key b m (by omega) h1

/-- End of an earlier month stays before the start of a later month. -/
theorem dbmB_mono (b : Bool) (m1 m2 : Nat) (h1 : 1 ≤ m1) (h2 : m1 < m2)
    (h3 : m2 ≤ 12) : dbmB b m1 + dimB b m1 ≤ dbmB b m2 := by
  have key : ∀ b : Bool, ∀ m1 : Nat, m1 < 12 → ∀ m2 : Nat, m2 < 13 →
      1 ≤ m1 → m1 < m2 → dbmB b m1 + dimB b m1 ≤ dbmB b m2 := by decide
  exact key b m1 (by omega) m2 (by omega) h1 h2

/-- December plus its days is a full civil year of the right length. -/
theorem dbmB_year (b : Bool) : dbmB b 12 + 31 = 365 + (if b then 1 else 0) := by
  cases b <;> rfl

/-- Day count before a year grows by exactly the length of that year. -/
theorem daysBeforeYear_succ (y : Nat) (h : 1 ≤ y) :
    daysBeforeYear (y + 1) = daysBeforeYear y + 365 + (if isLeap y then 1 else 0) := by
  have e4 : y / 4 = (y - 1) / 4 + (if y % 4 = 0 then 1 else 0) := by
    split_ifs <;> omega
  have e100 : y / 100 = (y - 1) / 100 + (if y % 100 = 0 then 1 else 0) := by
    split_ifs <;> omega
  have e400 : y / 400 = (y - 1) / 400 + (if y % 400 = 0 then 1 else 0) := by
    split_ifs <;> omega
  unfold daysBeforeYear
  simp only [Nat.add_sub_cancel]
  rw [e4, e100, e400]
  simp only [isLeap, Bool.and_eq_true, beq_iff_eq, Bool.or_eq_true, bne_iff_ne, ne_eq]
  split_ifs <;> omega

/-- Day count before a year is monotone in the year. -/
theorem daysBeforeYear_mono (y1 y2 : Nat) (h1 : 1 ≤ y1) (hle : y1 ≤ y2) :
    daysBeforeYear y1 ≤ daysBeforeYear y2 := by
  induction y2, hle using Nat.le_induction with
  | base => exact Nat.le_refl _
  | succ n hn ih =>
      have hstep := daysBeforeYear_succ n (by omega)
      omega

/-- Stepping one civil day forward adds one to the proleptic Gregorian
ordinal; this is the bridge between the structural successor and the ordinal
arithmetic datetime performs. -/
theorem toOrdinal_nextDay (d : Date) (h : d.IsOk) :
    d.nextDay.toOrdinal = d.toOrdinal + 1 := by
  obtain ⟨y, m, day⟩ := d
  simp only [Date.IsOk, daysInMonth] at h
  obtain ⟨h1, h2, h3, h4, h5, h6⟩ := h
  simp only [Date.nextDay, daysInMonth]
  by_cases hd : day < dimB (isLeap y) m
  · rw [if_pos hd]
    simp only [Date.toOrdinal, daysBeforeMonth]
    omega
  · rw [if_neg hd]
    by_cases hm : m < 12
    · rw [if_pos hm]
      simp only [Date.toOrdinal, daysBeforeMonth]
      have hsucc := dbmB_succ (isLeap y) m h3 (by omega)
      omega
    · rw [if_neg hm]
      have hm12 : m = 12 := by omega
      subst hm12
      simp only [Date.toOrdinal, daysBeforeMonth]
      have hdim : dimB (isLeap y) 12 = 31 := by
        have key : ∀ b, dimB b 12 = 31 := by decide
        exact key _
      have hdbm12 : dbmB (isLeap y) 12 = 334 + (if isLeap y then 1 else 0) := by
        have key : ∀ b, dbmB b 12 = 334 + (if b then 1 else 0) := by decide
        exact key _
      have hdbm1 : ∀ b, dbmB b 1 = 0 := by decide
      have hy := daysBeforeYear_succ y h1
      rw [hdbm1]
      by_cases hl : isLeap y = true
      · rw [if_pos hl] at hy hdbm12; omega
      · rw [if_neg hl] at hy hdbm12; omega

/-- Stepping one civil day forward preserves validity, except off the end of
the supported calendar. -/
theorem nextDay_isOk (d : Date) (h : d.IsOk) (hne : d ≠ ⟨9999, 12, 31⟩) :
    d.nextDay.IsOk := by
  obtain ⟨y, m, day⟩ := d
  simp only [Date.IsOk, daysInMonth] at h
  obtain ⟨h1, h2, h3, h4, h5, h6⟩ := h
  simp only [ne_eq, Date.mk.injEq] at hne
  simp only [Date.nextDay, daysInMonth]
  by_cases hd : day < dimB (isLeap y) m
  · rw [if_pos hd]
    simp only [Date.IsOk, daysInMonth]
    omega
  · rw [if_neg hd]
    by_cases hm : m < 12
    · rw [if_pos hm]
      have hpos := dimB_pos (isLeap y) (m + 1)
      simp only [Date.IsOk, daysInMonth]
      omega
    · rw [if_neg hm]
      have hm12 : m = 12 := by omega
      subst hm12
      have hdim : dimB (isLeap y) 12 = 31 := by
        have key : ∀ b, dimB b 12 = 31 := by decide
        exact key _
      have hy : y ≠ 9999 := by
        intro hcon
        exact hne ⟨hcon, rfl, by omega⟩
      have hpos := dimB_pos (isLeap (y + 1)) 1
      simp only [Date.IsOk, daysInMonth]
      omega

/-- Lexicographic date comparison is total. -/
theorem Date.lt_total (a b : Date) :
    a.lt b = true ∨ a = b ∨ b.lt a = true := by
  obtain ⟨y1, m1, d1⟩ := a
  obtain ⟨y2, m2, d2⟩ := b
  simp only [Date.lt, decide_eq_true_eq, Date.mk.injEq]
  omega

/-- Lexicographic order on valid dates implies strict ordinal order. -/
theorem toOrdinal_lt_of_lt (a b : Date) (ha : a.IsOk) (hb : b.IsOk)
    (hlt : a.lt b = true) : a.toOrdinal < b.toOrdinal := by
  obtain ⟨y1, m1, d1⟩ := a
  obtain ⟨y2, m2, d2⟩ := b
  simp only [Date.IsOk, daysInMonth] at ha hb
  obtain ⟨ha1, ha2, ha3, ha4, ha5, ha6⟩ := ha
  obtain ⟨hb1, hb2, hb3, hb4, hb5, hb6⟩ := hb
  simp only [Date.lt, decide_eq_true_eq] at hlt
  simp only [Date.toOrdinal, daysBeforeMonth]
  rcases hlt with hy | ⟨hyeq, hrest⟩
  · -- earlier year: everything in year y1 stays below the start of year y1 + 1
    have hend := dbmB_add_le (isLeap y1) m1 ha3 ha4
    have hyr := dbmB_year (isLeap y1)
    have hysucc := daysBeforeYear_succ y1 ha1
    have hmono := daysBeforeYear_mono (y1 + 1) y2 (by omega) (by omega)
    by_cases hl : isLeap y1 = true
    · rw [if_pos hl] at hyr hysucc; omega
    · rw [if_neg hl] at hyr hysucc; omega
  · subst hyeq
    rcases hrest with hm | ⟨hmeq, hd⟩
    · have hmono := dbmB_mono (isLeap y1) m1 m2 ha3 hm hb4
      omega
    · subst hmeq
      omega

/-- On valid dates the datetime comparison agrees exactly with ordinal
comparison. -/
theorem Date.lt_iff_toOrdinal (a b : Date) (ha : a.IsOk) (hb : b.IsOk) :
    a.lt b = true ↔ a.toOrdinal < b.toOrdinal := by
  constructor
  · exact toOrdinal_lt_of_lt a b ha hb
  · intro hord
    rcases Date.lt_total a b with h | h | h
    · exact h
    · subst h; omega
    · have := toOrdinal_lt_of_lt b a hb ha h
      omega

/-- Every valid date sits at or below the ordinal of 9999-12-31. -/
theorem toOrdinal_le_max (d : Date) (h : d.IsOk) :
    d.toOrdinal ≤ Date.toOrdinal ⟨9999, 12, 31⟩ := by
  by_cases hne : d = ⟨9999, 12, 31⟩
  · subst hne; exact Nat.le_refl _
  · have hlt : d.lt ⟨9999, 12, 31⟩ = true := by
      obtain ⟨y, m, da⟩ := d
      simp only [Date.IsOk, daysInMonth] at h
      obtain ⟨h1, h2, h3, h4, h5, h6⟩ := h
      have hdim : dimB (isLeap y) m ≤ 31 := dimB_le_31 _ _
      simp only [ne_eq, Date.mk.injEq] at hne
      simp only [Date.lt, decide_eq_true_eq]
      omega
    have := toOrdinal_lt_of_lt d ⟨9999, 12, 31⟩ h (by decide) hlt
    omega

/-! ## Range generator lemmas -/

/-- The reference chain has the stated number of elements. -/
theorem dayChain_length : ∀ (n : Nat) (c : CalendarDate), (dayChain n c).length = n
  | 0, _ => rfl
  | n + 1, c => by
      simp only [dayChain, List.length_cons]
      rw [dayChain_length n c.next_day]

/-- Iterating once more steps the final element one day. -/
theorem nextDayIter_succ : ∀ (n : Nat) (c : CalendarDate),
    nextDayIter (n + 1) c = (nextDayIter n c).next_day
  | 0, _ => rfl
  | n + 1, c => by
      show nextDayIter (n + 1) c.next_day = (nextDayIter n c.next_day).next_day
      exact nextDayIter_succ n c.next_day

/-- Element i of the reference chain is the i-fold day successor of the
start. -/
theorem dayChain_getElem : ∀ (n : Nat) (c : CalendarDate) (i : Nat),
    (dayChain n c)[i]? = if i < n then some (nextDayIter i c) else none
  | 0, _, i => by simp [dayChain]
  | n + 1, c, 0 => by simp [dayChain, nextDayIter]
  | n + 1, c, i + 1 => by
      simp only [dayChain, List.getElem?_cons_succ]
      rw [dayChain_getElem n c.next_day i]
      simp only [Nat.add_lt_add_iff_right]
      rfl

/-- Along any in-bounds stretch of days, iterated day stepping stays valid and
advances the ordinal by exactly the iteration count. -/
theorem nextDayIter_ok : ∀ (i : Nat) (c : CalendarDate), c.date.IsOk →
    c.date.toOrdinal + i ≤ Date.toOrdinal ⟨9999, 12, 31⟩ →
    (nextDayIter i c).date.IsOk ∧
      (nextDayIter i c).date.toOrdinal = c.date.toOrdinal + i
  | 0, c, hc, _ => ⟨hc, rfl⟩
  | i + 1, c, hc, hb => by
      have hne : c.date ≠ ⟨9999, 12, 31⟩ := by
        intro hcon
        rw [hcon] at hb
        omega
      have hok : c.next_day.date.IsOk := nextDay_isOk c.date hc hne
      have hstep : c.next_day.date.toOrdinal = c.date.toOrdinal + 1 :=
        toOrdinal_nextDay c.date hc
      have hrec := nextDayIter_ok i c.next_day hok (by omega)
      refine ⟨hrec.1, ?_⟩
      show (nextDayIter i c.next_day).date.toOrdinal = c.date.toOrdinal + (i + 1)
      rw [hrec.2, hstep]
      omega

/-- The bounded loop computes the reference chain whenever the bound covers
the ordinal distance; in particular the bound used by CalendarDate.range is
never the reason the loop stops, the guard is. -/
theorem rangeLoop_eq (m : Nat) : ∀ (s e : CalendarDate), s.date.IsOk → e.date.IsOk →
    e.date.toOrdinal ≤ s.date.toOrdinal + m →
    rangeLoop m s e = dayChain (e.date.toOrdinal - s.date.toOrdinal) s := by
  induction m with
  | zero =>
      intro s e hs he hb
      have h0 : e.date.toOrdinal - s.date.toOrdinal = 0 := by omega
      rw [h0]
      rfl
  | succ n ih =>
      intro s e hs he hb
      by_cases hlt : s.date.lt e.date = true
      · have hord := (Date.lt_iff_toOrdinal s.date e.date hs he).mp hlt
        have hmax := toOrdinal_le_max e.date he
        have hne : s.date ≠ ⟨9999, 12, 31⟩ := by
          intro hcon
          rw [hcon] at hord
          omega
        have hok2 : s.next_day.date.IsOk := nextDay_isOk s.date hs hne
        have hstep : s.next_day.date.toOrdinal = s.date.toOrdinal + 1 :=
          toOrdinal_nextDay s.date hs
        have hrec := ih s.next_day e hok2 he (by omega)
        simp only [rangeLoop, if_pos hlt, hrec]
        have hsplit : e.date.toOrdinal - s.date.toOrdinal =
            (e.date.toOrdinal - s.next_day.date.toOrdinal) + 1 := by omega
        rw [hsplit, dayChain]
      · simp only [rangeLoop, if_neg hlt]
        have hord : ¬ s.date.toOrdinal < e.date.toOrdinal := fun hcon =>
          hlt ((Date.lt_iff_toOrdinal s.date e.date hs he).mpr hcon)
        have h0 : e.date.toOrdinal - s.date.toOrdinal = 0 := by omega
        rw [h0]
        rfl

/-- On valid dates, range is the reference chain of ordinal-distance length. -/
theorem range_eq_dayChain (s e : CalendarDate) (hs : s.date.IsOk)
    (he : e.date.IsOk) : CalendarDate.range s e =
      dayChain (e.date.toOrdinal - s.date.toOrdinal) s :=
  rangeLoop_eq _ s e hs he (by omega)

/-- Any loop bound at least the ordinal distance yields the same list: the
explicit bound in the embedding of the while loop is inert. -/
theorem rangeLoop_stable (m : Nat) (s e : CalendarDate) (hs : s.date.IsOk)
    (he : e.date.IsOk)
    (hge : e.date.toOrdinal - s.date.toOrdinal ≤ m) :
    rangeLoop m s e = CalendarDate.range s e := by
  rw [rangeLoop_eq m s e hs he (by omega), range_eq_dayChain s e hs he]

/-- C1: for valid dates with start strictly before end under the datetime
comparison, CalendarDate.range yields exactly (end - start).days values (a
timedelta day count is the ordinal difference), the first yielded value is the
start itself, each subsequent value is next_day of the previous, and no
yielded value has the end date (so the end, whose CalendarDate equality is
date equality, is never yielded); when end is at or before start the generator
yields nothing. -/
theorem claim_C1_range (s e : CalendarDate) (hs : s.date.IsOk) (he : e.date.IsOk) :
    (s.date.lt e.date = true →
      (CalendarDate.range s e).length = e.date.toOrdinal - s.date.toOrdinal ∧
      (CalendarDate.range s e).head? = some s ∧
      (∀ i, i + 1 < (CalendarDate.range s e).length →
        (CalendarDate.range s e)[i + 1]? =
          ((CalendarDate.range s e)[i]?).map CalendarDate.next_day) ∧
      (∀ x ∈ CalendarDate.range s e, ¬ x.date = e.date)) ∧
    (s.date.lt e.date = false → CalendarDate.range s e = []) := by
  have hchain := range_eq_dayChain s e hs he
  constructor
  · intro hlt
    have hord := (Date.lt_iff_toOrdinal s.date e.date hs he).mp hlt
    have hmax := toOrdinal_le_max e.date he
    refine ⟨?_, ?_, ?_, ?_⟩
    · rw [hchain, dayChain_length]
    · rw [hchain]
      obtain ⟨k, hk⟩ : ∃ k, e.date.toOrdinal - s.date.toOrdinal = k + 1 :=
        ⟨e.date.toOrdinal - s.date.toOrdinal - 1, by omega⟩
      rw [hk, dayChain]
      rfl
    · intro i hi
      rw [hchain, dayChain_length] at hi
      rw [hchain, dayChain_getElem, dayChain_getElem, if_pos hi,
        if_pos (by omega : i < e.date.toOrdinal - s.date.toOrdinal),
        Option.map_some', nextDayIter_succ]
    · intro x hx
      rw [hchain, List.mem_iff_getElem?] at hx
      obtain ⟨i, hxi⟩ := hx
      rw [dayChain_getElem] at hxi
      by_cases hi : i < e.date.toOrdinal - s.date.toOrdinal
      · rw [if_pos hi] at hxi
        obtain ⟨hok, hordi⟩ := nextDayIter_ok i s hs (by omega)
        have heq : nextDayIter i s = x := Option.some.inj hxi
        rw [← heq]
        intro hcon
        have hoe := congrArg Date.toOrdinal hcon
        omega
      · rw [if_neg hi] at hxi
        exact absurd hxi (by simp)
  · intro hfalse
    have hord : ¬ s.date.toOrdinal < e.date.toOrdinal := by
      intro hcon
      rw [(Date.lt_iff_toOrdinal s.date e.date hs he).mpr hcon] at hfalse
      exact Bool.noConfusion hfalse
    rw [hchain]
    have h0 : e.date.toOrdinal - s.date.toOrdinal = 0 := by omega
    rw [h0]
    rfl

/-- Witness for C1 at 2020-02-27 versus 2020-03-02, a span crossing the leap
day of 2020: the range holds 4 values, starts at the start value, steps one
day at a time, and never reaches the end date. -/
theorem claim_C1_range_witness :
    (CalendarDate.range (CalendarDate.ofDate ⟨2020, 2, 27⟩)
        (CalendarDate.ofDate ⟨2020, 3, 2⟩)).length = 4 ∧
    (CalendarDate.range (CalendarDate.ofDate ⟨2020, 2, 27⟩)
        (CalendarDate.ofDate ⟨2020, 3, 2⟩)).head? =
      some (CalendarDate.ofDate ⟨2020, 2, 27⟩) ∧
    (∀ i, i + 1 < (CalendarDate.range (CalendarDate.ofDate ⟨2020, 2, 27⟩)
        (CalendarDate.ofDate ⟨2020, 3, 2⟩)).length →
      (CalendarDate.range (CalendarDate.ofDate ⟨2020, 2, 27⟩)
        (CalendarDate.ofDate ⟨2020, 3, 2⟩))[i + 1]? =
        ((CalendarDate.range (CalendarDate.ofDate ⟨2020, 2, 27⟩)
          (CalendarDate.ofDate ⟨2020, 3, 2⟩))[i]?).map CalendarDate.next_day) ∧
    (∀ x ∈ CalendarDate.range (CalendarDate.ofDate ⟨2020, 2, 27⟩)
        (CalendarDate.ofDate ⟨2020, 3, 2⟩), ¬ x.date = (⟨2020, 3, 2⟩ : Date)) := by
  have h := (claim_C1_range (CalendarDate.ofDate ⟨2020, 2, 27⟩)
    (CalendarDate.ofDate ⟨2020, 3, 2⟩) (by decide) (by decide)).1 (by decide)
  obtain ⟨h1, h2, h3, h4⟩ := h
  exact ⟨h1.trans (by decide), h2, h3, h4⟩

/-! ## StopTime identity and ordering -/

/-- Equality of two stop-times holds exactly when the four primary key fields
agree componentwise. -/
theorem eqSt_iff (a b : StopTime) :
    a.eqSt b = true ↔ (a.feed_id = b.feed_id ∧ a.trip_id = b.trip_id ∧
      a.stop_id = b.stop_id ∧ a.stop_sequence = b.stop_sequence) := by
  simp only [StopTime.eqSt, _generic_eq, StopTime.primary_keys, List.zip_cons_cons,
    List.zip_nil_right, List.all_cons, List.all_nil, Bool.and_eq_true, beq_iff_eq,
    PyLit.strV.injEq, PyLit.intV.injEq, and_true]

/-- C2: two StopTime records are equal exactly when their (feed_id, trip_id,
stop_id, stop_sequence) tuples agree componentwise, whatever every other field
holds; equal key tuples always hash identically under any primitive hash
function; and a difference in any single key field makes the records
unequal. -/
theorem claim_C2_identity (a b : StopTime) :
    (a.eqSt b = true ↔ a.primary_keys = b.primary_keys) ∧
    (a.primary_keys = b.primary_keys →
      ∀ pyHash : PyLit → Int, a.pyhash pyHash = b.pyhash pyHash) ∧
    (a.feed_id ≠ b.feed_id → a.eqSt b = false) ∧
    (a.trip_id ≠ b.trip_id → a.eqSt b = false) ∧
    (a.stop_id ≠ b.stop_id → a.eqSt b = false) ∧
    (a.stop_sequence ≠ b.stop_sequence → a.eqSt b = false) := by
  have hkeys : a.primary_keys = b.primary_keys ↔
      (a.feed_id = b.feed_id ∧ a.trip_id = b.trip_id ∧
        a.stop_id = b.stop_id ∧ a.stop_sequence = b.stop_sequence) := by
    simp [StopTime.primary_keys]
  refine ⟨?_, ?_, ?_, ?_, ?_, ?_⟩
  · rw [eqSt_iff, hkeys]
  · intro h pyHash
    unfold StopTime.pyhash
    rw [h]
  · intro h
    rw [Bool.eq_false_iff]
    intro hcon
    exact h ((eqSt_iff a b).mp hcon).1
  · intro h
    rw [Bool.eq_false_iff]
    intro hcon
    exact h ((eqSt_iff a b).mp hcon).2.1
  · intro h
    rw [Bool.eq_false_iff]
    intro hcon
    exact h ((eqSt_iff a b).mp hcon).2.2.1
  · intro h
    rw [Bool.eq_false_iff]
    intro hcon
    exact h ((eqSt_iff a b).mp hcon).2.2.2

/-- Witness for C2: identical keys with different arrival times are equal and
hash alike under a sample primitive hash; changing only the stop_id breaks
equality. -/
theorem claim_C2_identity_witness :
    (StopTime.mk "f" "t" "A" 3 (PyLit.intV 100) PyLit.noneV PyLit.noneV
        (PyLit.boolV false) (PyLit.intV 1) (PyLit.intV 0) (PyLit.intV 0) []).eqSt
      (StopTime.mk "f" "t" "A" 3 (PyLit.intV 200) PyLit.noneV PyLit.noneV
        (PyLit.boolV false) (PyLit.intV 1) (PyLit.intV 0) (PyLit.intV 0) []) = true ∧
    (StopTime.mk "f" "t" "A" 3 (PyLit.intV 100) PyLit.noneV PyLit.noneV
        (PyLit.boolV false) (PyLit.intV 1) (PyLit.intV 0) (PyLit.intV 0) []).pyhash
      (fun v => match v with
        | PyLit.intV n => n
        | PyLit.strV s => Int.ofNat s.length
        | _ => 0) =
      (StopTime.mk "f" "t" "A" 3 (PyLit.intV 200) PyLit.noneV PyLit.noneV
        (PyLit.boolV false) (PyLit.intV 1) (PyLit.intV 0) (PyLit.intV 0) []).pyhash
      (fun v => match v with
        | PyLit.intV n => n
        | PyLit.strV s => Int.ofNat s.length
        | _ => 0) ∧
    (StopTime.mk "f" "t" "A" 3 (PyLit.intV 100) PyLit.noneV PyLit.noneV
        (PyLit.boolV false) (PyLit.intV 1) (PyLit.intV 0) (PyLit.intV 0) []).eqSt
      (StopTime.mk "f" "t" "B" 3 (PyLit.intV 100) PyLit.noneV PyLit.noneV
        (PyLit.boolV false) (PyLit.intV 1) (PyLit.intV 0) (PyLit.intV 0) []) = false := by
  refine ⟨?_, ?_, ?_⟩
  · exact (claim_C2_identity _ _).1.mpr (by decide)
  · exact (claim_C2_identity _ _).2.1 (by decide) _
  · exact (claim_C2_identity _ _).2.2.2.2.1 (by decide)

/-- C3: the less-than comparison of stop-times reads stop_sequence alone, so
a lower sequence number is smaller whatever the stop_id values are; equal
sequence numbers compare unordered both ways even when the records differ in
identity (different stop_id means not equal). -/
theorem claim_C3_ordering (a b : StopTime) :
    (a.ltSt b = true ↔ a.stop_sequence < b.stop_sequence) ∧
    (a.stop_sequence = b.stop_sequence → a.ltSt b = false ∧ b.ltSt a = false) ∧
    (a.stop_id ≠ b.stop_id → a.eqSt b = false) := by
  refine ⟨?_, ?_, ?_⟩
  · simp [StopTime.ltSt]
  · intro h
    constructor <;> simp [StopTime.ltSt] <;> omega
  · intro h
    rw [Bool.eq_false_iff]
    intro hcon
    exact h ((eqSt_iff a b).mp hcon).2.2.1

/-- Witness for C3: sequence 1 is below sequence 2 despite different stop ids
while the records are unequal; equal sequences with different stop ids are
unordered both ways yet unequal. -/
theorem claim_C3_ordering_witness :
    (StopTime.mk "f" "t" "A" 1 PyLit.noneV PyLit.noneV PyLit.noneV
        (PyLit.boolV false) (PyLit.intV 1) (PyLit.intV 0) (PyLit.intV 0) []).ltSt
      (StopTime.mk "f" "t" "B" 2 PyLit.noneV PyLit.noneV PyLit.noneV
        (PyLit.boolV false) (PyLit.intV 1) (PyLit.intV 0) (PyLit.intV 0) []) = true ∧
    (StopTime.mk "f" "t" "A" 1 PyLit.noneV PyLit.noneV PyLit.noneV
        (PyLit.boolV false) (PyLit.intV 1) (PyLit.intV 0) (PyLit.intV 0) []).eqSt
      (StopTime.mk "f" "t" "B" 2 PyLit.noneV PyLit.noneV PyLit.noneV
        (PyLit.boolV false) (PyLit.intV 1) (PyLit.intV 0) (PyLit.intV 0) []) = false ∧
    (StopTime.mk "f" "t" "A" 5 PyLit.noneV PyLit.noneV PyLit.noneV
        (PyLit.boolV false) (PyLit.intV 1) (PyLit.intV 0) (PyLit.intV 0) []).ltSt
      (StopTime.mk "f" "t" "B" 5 PyLit.noneV PyLit.noneV PyLit.noneV
        (PyLit.boolV false) (PyLit.intV 1) (PyLit.intV 0) (PyLit.intV 0) []) = false ∧
    (StopTime.mk "f" "t" "A" 5 PyLit.noneV PyLit.noneV PyLit.noneV
        (PyLit.boolV false) (PyLit.intV 1) (PyLit.intV 0) (PyLit.intV 0) []).eqSt
      (StopTime.mk "f" "t" "B" 5 PyLit.noneV PyLit.noneV PyLit.noneV
        (PyLit.boolV false) (PyLit.intV 1) (PyLit.intV 0) (PyLit.intV 0) []) = false := by
  refine ⟨?_, ?_, ?_, ?_⟩
  · exact (claim_C3_ordering _ _).1.mpr (by decide)
  · exact (claim_C3_ordering _ _).2.2 (by decide)
  · exact ((claim_C3_ordering _ _).2.1 (by decide)).1
  · exact (claim_C3_ordering _ _).2.2 (by decide)

/-- C4: equality of a StopTime against any value that is not a StopTime
returns False (a total result, no exception), because the isinstance guard
short-circuits before any attribute is read. -/
theorem claim_C4_eq_total (st : StopTime) (v : PyObj)
    (h : ∀ o : StopTime, v ≠ PyObj.stO o) : st.eqPy v = false := by
  cases v with
  | stO o => exact absurd rfl (h o)
  | cdO c => rfl
  | dateO d => rfl
  | litO l => rfl

/-- Witness for C4: comparing a stop-time with the integer 5 yields False. -/
theorem claim_C4_eq_total_witness :
    (StopTime.mk "f" "t" "A" 1 PyLit.noneV PyLit.noneV PyLit.noneV
        (PyLit.boolV false) (PyLit.intV 1) (PyLit.intV 0) (PyLit.intV 0) []).eqPy
      (PyObj.litO (PyLit.intV 5)) = false :=
  claim_C4_eq_total _ _ (fun _o hcon => PyObj.noConfusion hcon)

/-- C10: the less-than comparison of a StopTime reads stop_sequence off its
operand unconditionally, so any operand lacking that attribute (every
non-StopTime value of the embedded universe) raises AttributeError rather
than returning False, unlike equality which returns False on the same
operands. -/
theorem claim_C10_lt_raises (st : StopTime) (v : PyObj)
    (h : ∀ o : StopTime, v ≠ PyObj.stO o) :
    (∃ msg, st.ltPy v = Except.error msg) ∧ st.eqPy v = false := by
  cases v with
  | stO o => exact absurd rfl (h o)
  | cdO c => exact ⟨⟨_, rfl⟩, rfl⟩
  | dateO d => exact ⟨⟨_, rfl⟩, rfl⟩
  | litO l => exact ⟨⟨_, rfl⟩, rfl⟩

/-- Witness for C10: ordering a stop-time against the integer 3 raises while
equality against the same operand returns False. -/
theorem claim_C10_lt_raises_witness :
    (∃ msg, (StopTime.mk "f" "t" "A" 1 PyLit.noneV PyLit.noneV PyLit.noneV
        (PyLit.boolV false) (PyLit.intV 1) (PyLit.intV 0) (PyLit.intV 0) []).ltPy
      (PyObj.litO (PyLit.intV 3)) = Except.error msg) ∧
    (StopTime.mk "f" "t" "A" 1 PyLit.noneV PyLit.noneV PyLit.noneV
        (PyLit.boolV false) (PyLit.intV 1) (PyLit.intV 0) (PyLit.intV 0) []).eqPy
      (PyObj.litO (PyLit.intV 3)) = false :=
  claim_C10_lt_raises _ _ (fun _o hcon => PyObj.noConfusion hcon)

/-! ## CalendarDate hashing -/

/-- C6: the hash of a CalendarDate is year * 384 + month * 32 + day of its
date, and any two CalendarDate records holding the same date are equal and
hash identically whatever their feed or service identifiers hold. -/
theorem claim_C6_hash (c : CalendarDate) :
    c.pyhash = c.date.year * 384 + c.date.month * 32 + c.date.day ∧
    (∀ c2 : CalendarDate, c.date = c2.date →
      c.eqPy (PyObj.cdO c2) = Except.ok true ∧ c.pyhash = c2.pyhash) := by
  refine ⟨rfl, ?_⟩
  intro c2 h
  constructor
  · simp [CalendarDate.eqPy, CalendarDate.coerce, Except.map, h]
  · simp [CalendarDate.pyhash, h]

/-- Witness for C6: two records of 2020-01-15 with different feed and service
identifiers are equal, hash alike, and the hash value is the documented
formula. -/
theorem claim_C6_hash_witness :
    (CalendarDate.mk (PyLit.strV "F1") PyLit.noneV ⟨2020, 1, 15⟩).eqPy
      (PyObj.cdO (CalendarDate.mk (PyLit.strV "F2") (PyLit.strV "S")
        ⟨2020, 1, 15⟩)) = Except.ok true ∧
    (CalendarDate.mk (PyLit.strV "F1") PyLit.noneV ⟨2020, 1, 15⟩).pyhash =
      (CalendarDate.mk (PyLit.strV "F2") (PyLit.strV "S") ⟨2020, 1, 15⟩).pyhash ∧
    (CalendarDate.mk (PyLit.strV "F1") PyLit.noneV ⟨2020, 1, 15⟩).pyhash =
      2020 * 384 + 1 * 32 + 15 ∧
    (CalendarDate.mk (PyLit.strV "F1") PyLit.noneV ⟨2020, 1, 15⟩).feed_id ≠
      (CalendarDate.mk (PyLit.strV "F2") (PyLit.strV "S") ⟨2020, 1, 15⟩).feed_id := by
  have h := (claim_C6_hash (CalendarDate.mk (PyLit.strV "F1") PyLit.noneV
    ⟨2020, 1, 15⟩)).2 (CalendarDate.mk (PyLit.strV "F2") (PyLit.strV "S")
    ⟨2020, 1, 15⟩) rfl
  exact ⟨h.1, h.2, by decide, by decide⟩

/-! ## Trip hops -/

/-- Zipping a list with its own tail pairs consecutive elements. -/
theorem zip_tail_adjacent : ∀ l : List StopTime, l.zip (l.drop 1) = adjacentPairs l
  | [] => rfl
  | [_] => rfl
  | a :: b :: rest => by
      show (a, b) :: (b :: rest).zip rest = (a, b) :: adjacentPairs (b :: rest)
      have h := zip_tail_adjacent (b :: rest)
      exact congrArg (List.cons (a, b)) h

/-- C8: hops() pairs each stop-time with its successor, giving exactly the
n - 1 consecutive pairs of an n-element stop_times sequence in order, and no
pair at all for zero or one stop-times. -/
theorem claim_C8_hops (t : Trip) :
    t.hops = adjacentPairs t.stop_times ∧
    t.hops.length = t.stop_times.length - 1 ∧
    (t.stop_times.length ≤ 1 → t.hops = []) := by
  refine ⟨zip_tail_adjacent t.stop_times, ?_, ?_⟩
  · unfold Trip.hops
    rw [List.length_zip, List.length_drop]
    omega
  · intro hle
    unfold Trip.hops
    rcases hst : t.stop_times with _ | ⟨a, tl⟩
    · rfl
    · rcases htl : tl with _ | ⟨b, tl2⟩
      · rfl
      · rw [hst, htl] at hle
        simp only [List.length_cons] at hle
        omega

/-- Witness for C8: a three-element trip yields exactly its two consecutive
pairs, and trips with one or zero stop-times yield none. -/
theorem claim_C8_hops_witness :
    (Trip.mk "f" "t" "r" "sv" 0 0 1 []
      [StopTime.mk "f" "t" "A" 1 PyLit.noneV PyLit.noneV PyLit.noneV
        (PyLit.boolV false) (PyLit.intV 1) (PyLit.intV 0) (PyLit.intV 0) [],
       StopTime.mk "f" "t" "B" 2 PyLit.noneV PyLit.noneV PyLit.noneV
        (PyLit.boolV false) (PyLit.intV 1) (PyLit.intV 0) (PyLit.intV 0) [],
       StopTime.mk "f" "t" "C" 3 PyLit.noneV PyLit.noneV PyLit.noneV
        (PyLit.boolV false) (PyLit.intV 1) (PyLit.intV 0) (PyLit.intV 0) []]).hops =
      [(StopTime.mk "f" "t" "A" 1 PyLit.noneV PyLit.noneV PyLit.noneV
          (PyLit.boolV false) (PyLit.intV 1) (PyLit.intV 0) (PyLit.intV 0) [],
        StopTime.mk "f" "t" "B" 2 PyLit.noneV PyLit.noneV PyLit.noneV
          (PyLit.boolV false) (PyLit.intV 1) (PyLit.intV 0) (PyLit.intV 0) []),
       (StopTime.mk "f" "t" "B" 2 PyLit.noneV PyLit.noneV PyLit.noneV
          (PyLit.boolV false) (PyLit.intV 1) (PyLit.intV 0) (PyLit.intV 0) [],
        StopTime.mk "f" "t" "C" 3 PyLit.noneV PyLit.noneV PyLit.noneV
          (PyLit.boolV false) (PyLit.intV 1) (PyLit.intV 0) (PyLit.intV 0) [])] ∧
    (Trip.mk "f" "t" "r" "sv" 0 0 1 []
      [StopTime.mk "f" "t" "A" 1 PyLit.noneV PyLit.noneV PyLit.noneV
        (PyLit.boolV false) (PyLit.intV 1) (PyLit.intV 0) (PyLit.intV 0) []]).hops = [] ∧
    (Trip.mk "f" "t" "r" "sv" 0 0 1 [] []).hops = [] := by
  refine ⟨?_, ?_, ?_⟩
  · exact ((claim_C8_hops _).1).trans (by decide)
  · exact (claim_C8_hops _).2.2 (by decide)
  · exact (claim_C8_hops _).2.2 (by decide)

/-! ## Extra keyword fields and the public attribute view -/

/-- Membership of an extra field in the public-vars view: an extra entry whose
key clashes with no fixed attribute appears exactly when its value is
primitive and its key does not begin with an underscore. -/
theorem pubvars_mem (fixed extras : List (String × PyLit)) (k : String)
    (v : PyLit) (hmem : (k, v) ∈ extras) (_hk : ∀ p ∈ fixed, p.1 ≠ k) :
    ((k, v) ∈ _public_vars (fixed ++ extras) ↔
      (v.isPrimitive = true ∧ k.data.head? ≠ some '_')) := by
  unfold _public_vars
  rw [List.mem_filter]
  simp only [List.mem_append, Bool.and_eq_true, bne_iff_ne, ne_eq]
  constructor
  · rintro ⟨_, hcond1, hcond2⟩
    exact ⟨hcond2, hcond1⟩
  · rintro ⟨hprim, hhead⟩
    exact ⟨Or.inr hmem, hhead, hprim⟩

/-- C9 (amended): every entity constructor taking open keyword fields
(Agency, Stop, Route, Trip, StopTime) stores them verbatim in the record, and
the public attribute view feeding the textual representation lists an extra
field exactly when its value is a primitive scalar AND its name does not begin
with an underscore.  (FeedInfo, Calendar and CalendarDate take no extras.)
Hypotheses mirror Python calling rules: a keyword cannot repeat a fixed
parameter name, and an attribute key is a nonempty identifier. -/
theorem claim_C9_extras :
    (∀ (f i n u tz : String) (ex : List (String × PyLit)),
      (Agency.mk f i n u tz ex).extras = ex) ∧
    (∀ (a : Agency) (k : String) (v : PyLit), (k, v) ∈ a.extras →
      k ∉ Agency.fixedNames → k.data ≠ [] →
      ((k, v) ∈ _public_vars a.attrs ↔
        (v.isPrimitive = true ∧ k.data.head? ≠ some '_'))) ∧
    (∀ (f i n : String) (la lo ps : PyLit) (lt wb : Int)
      (ex : List (String × PyLit)),
      (Stop.mk f i n la lo lt ps wb ex).extras = ex) ∧
    (∀ (s : Stop) (k : String) (v : PyLit), (k, v) ∈ s.extras →
      k ∉ Stop.fixedNames → k.data ≠ [] →
      ((k, v) ∈ _public_vars s.attrs ↔
        (v.isPrimitive = true ∧ k.data.head? ≠ some '_'))) ∧
    (∀ (f i ag : String) (rt : Int) (ex : List (String × PyLit)),
      (Route.mk f i ag rt ex).extras = ex) ∧
    (∀ (r : Route) (k : String) (v : PyLit), (k, v) ∈ r.extras →
      k ∉ Route.fixedNames → k.data ≠ [] →
      ((k, v) ∈ _public_vars r.attrs ↔
        (v.isPrimitive = true ∧ k.data.head? ≠ some '_'))) ∧
    (∀ (f i rt sv : String) (wa ba et : Int) (ex : List (String × PyLit))
      (sts : List StopTime),
      (Trip.mk f i rt sv wa ba et ex sts).extras = ex) ∧
    (∀ (t : Trip) (k : String) (v : PyLit), (k, v) ∈ t.extras →
      k ∉ Trip.fixedNames → k.data ≠ [] →
      ((k, v) ∈ _public_vars t.attrs ↔
        (v.isPrimitive = true ∧ k.data.head? ≠ some '_'))) ∧
    (∀ (f i si : String) (sq : Int) (arr dep sd ip tp pt dot : PyLit)
      (ex : List (String × PyLit)),
      (StopTime.mk f i si sq arr dep sd ip tp pt dot ex).extras = ex) ∧
    (∀ (st : StopTime) (k : String) (v : PyLit), (k, v) ∈ st.extras →
      k ∉ StopTime.fixedNames → k.data ≠ [] →
      ((k, v) ∈ _public_vars st.attrs ↔
        (v.isPrimitive = true ∧ k.data.head? ≠ some '_'))) := by
  refine ⟨fun _ _ _ _ _ _ => rfl, ?_, fun _ _ _ _ _ _ _ _ _ => rfl, ?_,
    fun _ _ _ _ _ => rfl, ?_, fun _ _ _ _ _ _ _ _ _ => rfl, ?_,
    fun _ _ _ _ _ _ _ _ _ _ _ _ => rfl, ?_⟩
  · intro a k v hmem hnot hne
    refine pubvars_mem _ a.extras k v hmem ?_
    intro p hp
    simp only [List.mem_cons, List.not_mem_nil, or_false] at hp
    rcases hp with h | h | h | h | h <;> subst h <;>
      (intro hcon; apply hnot; rw [← hcon]; simp [Agency.fixedNames])
  · intro s k v hmem hnot hne
    refine pubvars_mem _ s.extras k v hmem ?_
    intro p hp
    simp only [List.mem_cons, List.not_mem_nil, or_false] at hp
    rcases hp with h | h | h | h | h | h | h | h <;> subst h <;>
      (intro hcon; apply hnot; rw [← hcon]; simp [Stop.fixedNames])
  · intro r k v hmem hnot hne
    refine pubvars_mem _ r.extras k v hmem ?_
    intro p hp
    simp only [List.mem_cons, List.not_mem_nil, or_false] at hp
    rcases hp with h | h | h | h <;> subst h <;>
      (intro hcon; apply hnot; rw [← hcon]; simp [Route.fixedNames])
  · intro t k v hmem hnot hne
    refine pubvars_mem _ t.extras k v hmem ?_
    intro p hp
    simp only [List.mem_cons, List.not_mem_nil, or_false] at hp
    rcases hp with h | h | h | h | h | h | h <;> subst h <;>
      (intro hcon; apply hnot; rw [← hcon]; simp [Trip.fixedNames])
  · intro st k v hmem hnot hne
    refine pubvars_mem _ st.extras k v hmem ?_
    intro p hp
    simp only [List.mem_cons, List.not_mem_nil, or_false] at hp
    rcases hp with h | h | h | h | h | h | h | h | h | h | h <;> subst h <;>
      (intro hcon; apply hnot; rw [← hcon]; simp [StopTime.fixedNames])

/-- Counterexample for C9 as stated: the extra field _hidden carries the
primitive value 5, is stored on the record, yet the public view omits it, so
inclusion is not equivalent to primitivity alone (the name filter also
applies). -/
theorem claim_C9_extras_counterexample :
    PyLit.isPrimitive (PyLit.intV 5) = true ∧
    ("_hidden", PyLit.intV 5) ∈ (Stop.mk "f" "s1" "Name" (PyLit.floatV 0)
      (PyLit.floatV 0) 0 PyLit.noneV 0 [("_hidden", PyLit.intV 5)]).extras ∧
    ("_hidden", PyLit.intV 5) ∉ _public_vars (Stop.mk "f" "s1" "Name"
      (PyLit.floatV 0) (PyLit.floatV 0) 0 PyLit.noneV 0
      [("_hidden", PyLit.intV 5)]).attrs := by
  refine ⟨rfl, by decide, by decide⟩

/-- Witness for C9 (amended): on a concrete Stop, a primitive-valued extra
with an ordinary name shows in the public view and a None-valued extra does
not. -/
theorem claim_C9_extras_witness :
    ("color", PyLit.strV "red") ∈ _public_vars (Stop.mk "f" "s1" "Name"
      (PyLit.floatV 0) (PyLit.floatV 0) 0 PyLit.noneV 0
      [("color", PyLit.strV "red"), ("note", PyLit.noneV)]).attrs ∧
    ("note", PyLit.noneV) ∉ _public_vars (Stop.mk "f" "s1" "Name"
      (PyLit.floatV 0) (PyLit.floatV 0) 0 PyLit.noneV 0
      [("color", PyLit.strV "red"), ("note", PyLit.noneV)]).attrs := by
  constructor
  · exact (claim_C9_extras.2.2.2.1 _ "color" (PyLit.strV "red") (by decide)
      (by decide) (by decide)).mpr ⟨rfl, by decide⟩
  · intro hcon
    have h := (claim_C9_extras.2.2.2.1 _ "note" PyLit.noneV (by decide)
      (by decide) (by decide)).mp hcon
    exact absurd h.1 (by decide)

/-! ## Digit parsing and formatting round trips -/

/-- Rendering a digit below ten gives a decimal digit character. -/
theorem digitChar_isDigit (m : Nat) (h : m < 10) :
    (Nat.digitChar m).isDigit = true := by
  have key : ∀ m2 : Nat, m2 < 10 → (Nat.digitChar m2).isDigit = true := by decide
  exact key m h

/-- Reading a rendered digit back recovers its value. -/
theorem digitChar_toNat (m : Nat) (h : m < 10) :
    (Nat.digitChar m).toNat - 48 = m := by
  have key : ∀ m2 : Nat, m2 < 10 → (Nat.digitChar m2).toNat - 48 = m2 := by decide
  exact key m h

/-- A width-k zero-padded rendering has exactly k characters. -/
theorem padDigits_length : ∀ (k n : Nat), (padDigits k n).length = k
  | 0, _ => rfl
  | k + 1, n => by
      simp only [padDigits, List.length_cons, padDigits_length k n]

/-- Every character of a zero-padded rendering is a decimal digit. -/
theorem padDigits_isDigit : ∀ (k n : Nat), ∀ c ∈ padDigits k n, c.isDigit = true
  | 0, _, c, hc => absurd hc (List.not_mem_nil c)
  | k + 1, n, c, hc => by
      simp only [padDigits, List.mem_cons] at hc
      rcases hc with h | h
      · subst h
        exact digitChar_isDigit _ (Nat.mod_lt _ (by omega))
      · exact padDigits_isDigit k n c h

/-- The parsing loop over a zero-padded rendering accumulates exactly the
rendered value modulo the width. -/
theorem parseIntGo_pad : ∀ (k acc n : Nat),
    parseIntGo acc (padDigits k n) = some (acc * 10 ^ k + n % 10 ^ k)
  | 0, acc, n => by
      simp [padDigits, parseIntGo, Nat.mod_one]
  | k + 1, acc, n => by
      have hd : n / 10 ^ k % 10 < 10 := Nat.mod_lt _ (by omega)
      show parseIntGo acc (Nat.digitChar (n / 10 ^ k % 10) :: padDigits k n) = _
      rw [parseIntGo, if_pos (digitChar_isDigit _ hd), digitChar_toNat _ hd,
        parseIntGo_pad k _ n]
      congr 1
      rw [Nat.mod_pow_succ]
      ring

/-- Python int() over the zero-padded rendering of an in-range number returns
the number. -/
theorem parseInt_pad (k n : Nat) (hk : 1 ≤ k) (hn : n < 10 ^ k) :
    parseInt (padDigits k n) = some n := by
  obtain ⟨k1, rfl⟩ : ∃ k1, k = k1 + 1 := ⟨k - 1, by omega⟩
  calc parseInt (padDigits (k1 + 1) n)
      = parseIntGo 0 (padDigits (k1 + 1) n) := rfl
    _ = some (0 * 10 ^ (k1 + 1) + n % 10 ^ (k1 + 1)) := parseIntGo_pad _ 0 n
    _ = some n := by rw [Nat.zero_mul, Nat.zero_add, Nat.mod_eq_of_lt hn]

/-- C7 (amended): fromYYYYMMDD reads only the three slices [0:4], [4:6] and
[6:8], so it succeeds exactly when the three slices parse as integers forming
a valid date, with no length check; in particular for every valid (y, m, d)
the zero-padded 8-digit string round-trips to ymd(y, m, d), which succeeds. -/
theorem claim_C7_fromYYYYMMDD (y m d : Nat) (h : (Date.mk y m d).IsOk) :
    CalendarDate.fromYYYYMMDD
        ⟨padDigits 4 y ++ (padDigits 2 m ++ padDigits 2 d)⟩ =
      CalendarDate.ymd y m d ∧
    (CalendarDate.ymd y m d).isSome = true ∧
    (∀ s : String, (CalendarDate.fromYYYYMMDD s).isSome = true ↔
      ∃ y2 m2 d2 : Nat, parseInt (s.data.take 4) = some y2 ∧
        parseInt ((s.data.drop 4).take 2) = some m2 ∧
        parseInt ((s.data.drop 6).take 2) = some d2 ∧
        (datetime_date y2 m2 d2).isSome = true) := by
  have hok := h
  simp only [Date.IsOk, daysInMonth] at h
  obtain ⟨h1, h2, h3, h4, h5, h6⟩ := h
  have hdim := dimB_le_31 (isLeap y) m
  have e4 : (10 : Nat) ^ 4 = 10000 := by norm_num
  have e2 : (10 : Nat) ^ 2 = 100 := by norm_num
  refine ⟨?_, ?_, ?_⟩
  · have t1 : (padDigits 4 y ++ (padDigits 2 m ++ padDigits 2 d)).take 4 =
        padDigits 4 y := List.take_left' (padDigits_length 4 y)
    have t2 : (padDigits 4 y ++ (padDigits 2 m ++ padDigits 2 d)).drop 4 =
        padDigits 2 m ++ padDigits 2 d := List.drop_left' (padDigits_length 4 y)
    have t3 : (padDigits 2 m ++ padDigits 2 d).take 2 = padDigits 2 m :=
      List.take_left' (padDigits_length 2 m)
    have t4 : (padDigits 4 y ++ (padDigits 2 m ++ padDigits 2 d)).drop 6 =
        padDigits 2 d := by
      rw [show padDigits 4 y ++ (padDigits 2 m ++ padDigits 2 d) =
          (padDigits 4 y ++ padDigits 2 m) ++ padDigits 2 d from
          (List.append_assoc _ _ _).symm]
      exact List.drop_left'
        (by rw [List.length_append, padDigits_length, padDigits_length])
    have t5 : (padDigits 2 d).take 2 = padDigits 2 d :=
      List.take_of_length_le (by rw [padDigits_length])
    have hp1 : parseInt (padDigits 4 y) = some y :=
      parseInt_pad 4 y (by omega) (by omega)
    have hp2 : parseInt (padDigits 2 m) = some m :=
      parseInt_pad 2 m (by omega) (by omega)
    have hp3 : parseInt (padDigits 2 d) = some d :=
      parseInt_pad 2 d (by omega) (by omega)
    show (parseInt ((padDigits 4 y ++ (padDigits 2 m ++ padDigits 2 d)).take 4)).bind
        (fun y2 => (parseInt (((padDigits 4 y ++ (padDigits 2 m ++ padDigits 2 d)).drop 4).take 2)).bind
          fun m2 => (parseInt (((padDigits 4 y ++ (padDigits 2 m ++ padDigits 2 d)).drop 6).take 2)).bind
            fun d2 => CalendarDate.ymd y2 m2 d2) = CalendarDate.ymd y m d
    rw [t1, t2, t3, t4, t5, hp1, hp2, hp3]
    rfl
  · unfold CalendarDate.ymd datetime_date
    rw [if_pos hok]
    rfl
  · intro s
    unfold CalendarDate.fromYYYYMMDD CalendarDate.ymd datetime_date
    cases hq1 : parseInt (s.data.take 4) with
    | none => simp [hq1]
    | some a =>
      cases hq2 : parseInt ((s.data.drop 4).take 2) with
      | none => simp [hq1, hq2]
      | some b =>
        cases hq3 : parseInt ((s.data.drop 6).take 2) with
        | none => simp [hq1, hq2, hq3]
        | some cc =>
          by_cases hvd : (Date.mk a b cc).IsOk
          · simp [hq1, hq2, hq3, hvd, datetime_date]
          · simp [hq1, hq2, hq3, hvd, datetime_date]

/-- Counterexample for C7 as stated: a nine-digit numeric string is not an
8-digit string, yet fromYYYYMMDD accepts it, reading only the first eight
characters and producing 2020-01-01. -/
theorem claim_C7_fromYYYYMMDD_counterexample :
    ("202001019" : String).length = 9 ∧
    (∀ c ∈ ("202001019" : String).data, c.isDigit = true) ∧
    CalendarDate.fromYYYYMMDD "202001019" =
      some (CalendarDate.ofDate ⟨2020, 1, 1⟩) := by
  refine ⟨rfl, by decide, by decide⟩

/-- Witness for C7 (amended): the valid date 2020-01-15 round-trips through
its zero-padded rendering, which is the literal string 20200115. -/
theorem claim_C7_fromYYYYMMDD_witness :
    CalendarDate.fromYYYYMMDD "20200115" =
      CalendarDate.ymd 2020 1 15 ∧
    (CalendarDate.ymd 2020 1 15).isSome = true := by
  have h := claim_C7_fromYYYYMMDD 2020 1 15 (by decide)
  refine ⟨?_, h.2.1⟩
  rw [show ("20200115" : String) =
    ⟨padDigits 4 2020 ++ (padDigits 2 1 ++ padDigits 2 15)⟩ from by decide]
  exact h.1

/-! ## String coercion of comparison operands -/

/-- Splitting a dash-free chunk returns the chunk whole. -/
theorem splitOnDash_no_dash : ∀ (xs : List Char), (∀ c ∈ xs, c ≠ '-') →
    splitOnDash xs = [xs]
  | [], _ => rfl
  | c :: cs, h => by
      unfold splitOnDash
      rw [if_neg (h c (List.mem_cons_self c cs))]
      rw [splitOnDash_no_dash cs (fun c2 hc2 => h c2 (List.mem_cons_of_mem _ hc2))]

/-- Splitting past a dash-free prefix peels that prefix off as the first
part. -/
theorem splitOnDash_append (xs ys : List Char) (h : ∀ c ∈ xs, c ≠ '-') :
    splitOnDash (xs ++ '-' :: ys) = xs :: splitOnDash ys := by
  induction xs with
  | nil =>
      show splitOnDash ('-' :: ys) = [] :: splitOnDash ys
      conv_lhs => rw [splitOnDash]
      rw [if_pos rfl]
  | cons c cs ih =>
      have hc : c ≠ '-' := h c (List.mem_cons_self c _)
      show splitOnDash (c :: (cs ++ '-' :: ys)) = (c :: cs) :: splitOnDash ys
      conv_lhs => rw [splitOnDash]
      rw [if_neg hc, ih (fun c2 hc2 => h c2 (List.mem_cons_of_mem _ hc2))]

/-- Decimal digit characters are never the dash. -/
theorem isDigit_ne_dash (c : Char) (h : c.isDigit = true) : c ≠ '-' := by
  intro hcon
  subst hcon
  exact absurd h (by decide)

/-- Splitting the ISO rendering of a date yields its three zero-padded
components. -/
theorem splitOnDash_toIso (y m d : Nat) :
    splitOnDash (Date.toIso ⟨y, m, d⟩).data =
      [padDigits 4 y, padDigits 2 m, padDigits 2 d] := by
  show splitOnDash
      (padDigits 4 y ++ '-' :: (padDigits 2 m ++ '-' :: padDigits 2 d)) = _
  rw [splitOnDash_append _ _
    (fun c hc => isDigit_ne_dash c (padDigits_isDigit 4 y c hc))]
  rw [splitOnDash_append _ _
    (fun c hc => isDigit_ne_dash c (padDigits_isDigit 2 m c hc))]
  rw [splitOnDash_no_dash _
    (fun c hc => isDigit_ne_dash c (padDigits_isDigit 2 d c hc))]

/-- Coercing the ISO string of a valid date recovers the date. -/
theorem coerce_toIso (dt : Date) (h : dt.IsOk) :
    CalendarDate.coerce (PyObj.litO (PyLit.strV dt.toIso)) = Except.ok dt := by
  obtain ⟨y, m, d⟩ := dt
  have hok := h
  simp only [Date.IsOk, daysInMonth] at h
  obtain ⟨h1, h2, h3, h4, h5, h6⟩ := h
  have hdim := dimB_le_31 (isLeap y) m
  have e4 : (10 : Nat) ^ 4 = 10000 := by norm_num
  have e2 : (10 : Nat) ^ 2 = 100 := by norm_num
  have hsplit := splitOnDash_toIso y m d
  have hp1 : parseInt (padDigits 4 y) = some y :=
    parseInt_pad 4 y (by omega) (by omega)
  have hp2 : parseInt (padDigits 2 m) = some m :=
    parseInt_pad 2 m (by omega) (by omega)
  have hp3 : parseInt (padDigits 2 d) = some d :=
    parseInt_pad 2 d (by omega) (by omega)
  have hdd : datetime_date y m d = some ⟨y, m, d⟩ := by
    unfold datetime_date
    rw [if_pos hok]
  simp only [CalendarDate.coerce, hsplit, List.getElem?_cons_zero,
    List.getElem?_cons_succ, hp1, hp2, hp3, hdd]

/-- Dates never compare below themselves. -/
theorem Date.lt_irrefl (d : Date) : d.lt d = false := by
  simp [Date.lt]

/-- C5: equality and ordering of a CalendarDate accept a CalendarDate, a
YYYY-MM-DD string or a bare date, and for the same underlying calendar date
the three representations are mutually equal (equal, not below, not unequal);
every operand of any other kind, be it an integer, a boolean, a float, None,
another entity or any other object, makes the comparison fail with the
coercion error whose message names the offending value. -/
theorem claim_C5_coerce (c : CalendarDate) (h : c.date.IsOk) :
    (c.eqPy (PyObj.litO (PyLit.strV c.date.toIso)) = Except.ok true ∧
     c.ltPy (PyObj.litO (PyLit.strV c.date.toIso)) = Except.ok false ∧
     c.nePy (PyObj.litO (PyLit.strV c.date.toIso)) = Except.ok false) ∧
    (c.eqPy (PyObj.dateO c.date) = Except.ok true ∧
     c.ltPy (PyObj.dateO c.date) = Except.ok false ∧
     c.nePy (PyObj.dateO c.date) = Except.ok false) ∧
    (∀ c2 : CalendarDate, c2.date = c.date →
      c.eqPy (PyObj.cdO c2) = Except.ok true ∧
      c.ltPy (PyObj.cdO c2) = Except.ok false ∧
      c.nePy (PyObj.cdO c2) = Except.ok false) ∧
    (∀ v : PyObj,
      (∀ s : String, v ≠ PyObj.litO (PyLit.strV s)) →
      (∀ dt : Date, v ≠ PyObj.dateO dt) →
      (∀ c2 : CalendarDate, v ≠ PyObj.cdO c2) →
      c.eqPy v = Except.error ("Cannot coerce " ++ v.toText ++
        " to a CalendarDate (use either a CalendarDate, a yyyy-mm-dd string or a datetime.date)") ∧
      c.ltPy v = Except.error ("Cannot coerce " ++ v.toText ++
        " to a CalendarDate (use either a CalendarDate, a yyyy-mm-dd string or a datetime.date)")) := by
  have hco := coerce_toIso c.date h
  refine ⟨?_, ?_, ?_, ?_⟩
  · unfold CalendarDate.eqPy CalendarDate.ltPy CalendarDate.nePy
    rw [hco]
    refine ⟨?_, ?_, ?_⟩ <;> simp [Except.map, Date.lt_irrefl]
  · unfold CalendarDate.eqPy CalendarDate.ltPy CalendarDate.nePy
    refine ⟨?_, ?_, ?_⟩ <;> simp [CalendarDate.coerce, Except.map, Date.lt_irrefl]
  · intro c2 h2
    unfold CalendarDate.eqPy CalendarDate.ltPy CalendarDate.nePy
    refine ⟨?_, ?_, ?_⟩ <;>
      simp [CalendarDate.coerce, Except.map, h2, Date.lt_irrefl]
  · intro v hs hd hc2
    cases v with
    | stO st => exact ⟨rfl, rfl⟩
    | cdO c2 => exact absurd rfl (hc2 c2)
    | dateO dt => exact absurd rfl (hd dt)
    | litO l =>
      cases l with
      | strV s => exact absurd rfl (hs s)
      | intV n => exact ⟨rfl, rfl⟩
      | floatV b => exact ⟨rfl, rfl⟩
      | boolV b => exact ⟨rfl, rfl⟩
      | noneV => exact ⟨rfl, rfl⟩
      | objV dsc => exact ⟨rfl, rfl⟩

/-- Witness for C5 at 2020-01-15: the string, date and CalendarDate forms of
the same day are all equal to it and none is below it, while comparing with
the integer 7, with None and with the boolean True produces the coercion
error naming each offending value. -/
theorem claim_C5_coerce_witness :
    (CalendarDate.ofDate ⟨2020, 1, 15⟩).eqPy
      (PyObj.litO (PyLit.strV "2020-01-15")) = Except.ok true ∧
    (CalendarDate.ofDate ⟨2020, 1, 15⟩).eqPy
      (PyObj.dateO ⟨2020, 1, 15⟩) = Except.ok true ∧
    (CalendarDate.ofDate ⟨2020, 1, 15⟩).eqPy
      (PyObj.cdO (CalendarDate.mk (PyLit.strV "F") PyLit.noneV
        ⟨2020, 1, 15⟩)) = Except.ok true ∧
    (CalendarDate.ofDate ⟨2020, 1, 15⟩).ltPy
      (PyObj.litO (PyLit.strV "2020-01-15")) = Except.ok false ∧
    (CalendarDate.ofDate ⟨2020, 1, 15⟩).eqPy (PyObj.litO (PyLit.intV 7)) =
      Except.error "Cannot coerce 7 to a CalendarDate (use either a CalendarDate, a yyyy-mm-dd string or a datetime.date)" ∧
    (CalendarDate.ofDate ⟨2020, 1, 15⟩).eqPy (PyObj.litO PyLit.noneV) =
      Except.error "Cannot coerce None to a CalendarDate (use either a CalendarDate, a yyyy-mm-dd string or a datetime.date)" ∧
    (CalendarDate.ofDate ⟨2020, 1, 15⟩).ltPy (PyObj.litO (PyLit.boolV true)) =
      Except.error "Cannot coerce True to a CalendarDate (use either a CalendarDate, a yyyy-mm-dd string or a datetime.date)" := by
  have h := claim_C5_coerce (CalendarDate.ofDate ⟨2020, 1, 15⟩) (by decide)
  have hs : ("2020-01-15" : String) =
      Date.toIso ⟨2020, 1, 15⟩ := by decide
  have hint := h.2.2.2 (PyObj.litO (PyLit.intV 7))
    (fun s hcon => PyLit.noConfusion (PyObj.litO.inj hcon))
    (fun dt hcon => PyObj.noConfusion hcon)
    (fun c2 hcon => PyObj.noConfusion hcon)
  have hnone := h.2.2.2 (PyObj.litO PyLit.noneV)
    (fun s hcon => PyLit.noConfusion (PyObj.litO.inj hcon))
    (fun dt hcon => PyObj.noConfusion hcon)
    (fun c2 hcon => PyObj.noConfusion hcon)
  have hbool := h.2.2.2 (PyObj.litO (PyLit.boolV true))
    (fun s hcon => PyLit.noConfusion (PyObj.litO.inj hcon))
    (fun dt hcon => PyObj.noConfusion hcon)
    (fun c2 hcon => PyObj.noConfusion hcon)
  refine ⟨?_, h.2.1.1, (h.2.2.1 _ rfl).1, ?_, ?_, ?_, ?_⟩
  · rw [hs]
    exact h.1.1
  · rw [hs]
    exact h.1.2.1
  · rw [hint.1]
    rfl
  · rw [hnone.1]
    rfl
  · rw [hbool.2]
    rfl
